import Mathlib

/-!
# Gateway: rate-limited forwarding proxy (`services/gateway/main.go`)

A shallow embedding of the Go gateway.  The handler code is translated
statement by statement; the things it touches are made explicit:

* the package-level map `clients` is a finite map from identifier to `Client`,
  represented by its lookup function;
* `time.Time` values are readings of the monotonic clock in nanoseconds;
* the `http.ResponseWriter` is the writer of the `net/http` server, kept as the
  header, status and body it has been given for the caller;
* every call that reaches outside the handler (mutex, map, `next`,
  `client.Get`, `io.Copy`, `log.Printf`) is appended to a chronological trace;
* what the outside world answers for one request (the clock reading, the
  result of `client.Get`, whether the copy to the caller breaks) is an `Env`.

Strings are sequences of Unicode code points (header values are taken to be
valid UTF-8, so splitting on the ASCII comma and trimming runes agree with the
byte-level Go functions).
-/

namespace Gateway

/-! ## Time -/

/-- A reading of the clock, in nanoseconds. -/
abbrev Time := Int

/-- The Go type `time.Duration`: a signed 64-bit count of nanoseconds. -/
abbrev Duration := Int

def minDuration : Duration := -(2 ^ 63)

def maxDuration : Duration := 2 ^ 63 - 1

def Second : Duration := 1000000000

/-- The constant `rateLimitDuration = 3 * time.Second`. -/
def rateLimitDuration : Duration := 3 * Second

/-- The method `time.Time.Sub`: the difference `t - u`, saturated to the range
of `time.Duration`. -/
def timeSub (t u : Time) : Duration :=
  let d := t - u
  if d > maxDuration then maxDuration
  else if d < minDuration then minDuration
  else d

/-! ## Strings: `strings.Split` and `strings.TrimSpace` -/

/-- The Go predicate `unicode.IsSpace`: the code points with the Unicode
White_Space property. -/
def isSpace (c : Char) : Bool :=
  let n := c.toNat
  (9 ≤ n && n ≤ 13) || n == 32 || n == 133 || n == 160 || n == 5760 ||
  (8192 ≤ n && n ≤ 8202) || n == 8232 || n == 8233 || n == 8239 ||
  n == 8287 || n == 12288

/-- The call `strings.Split(s, ",")`: the pieces of `s` between commas.  The
piece before the first comma comes first; a string without comma is its own
single piece. -/
def splitComma : List Char → List (List Char)
  | [] => [[]]
  | c :: cs =>
    if c = ',' then [] :: splitComma cs
    else
      match splitComma cs with
      | [] => [[c]]
      | p :: ps => (c :: p) :: ps

/-- The Go function `strings.TrimLeftFunc(s, unicode.IsSpace)`. -/
def trimLeft (s : List Char) : List Char :=
  s.dropWhile isSpace

/-- The Go function `strings.TrimRightFunc(s, unicode.IsSpace)`. -/
def trimRight (s : List Char) : List Char :=
  (s.reverse.dropWhile isSpace).reverse

/-- The Go function `strings.TrimSpace`: leading and trailing white space
removed. -/
def trimSpace (s : List Char) : List Char :=
  trimRight (trimLeft s)

/-! ## Requests and client identity -/

/-- The parts of `*http.Request` the gateway reads. -/
structure Request where
  /-- The field `r.Method`. -/
  method : String
  /-- The value of `r.Header.Get("X-Forwarded-For")`, `""` when absent. -/
  xForwardedFor : String
  /-- The field `r.RemoteAddr`. -/
  remoteAddr : String
  /-- The value of `r.URL.Query().Get("target")`, `""` when absent. -/
  target : String
  deriving DecidableEq, Repr

/-- The function `getClientIP`. -/
def getClientIP (r : Request) : String :=
  let ip := r.xForwardedFor
  if ip ≠ "" then
    let parts := splitComma ip.data
    match parts with
    | p :: _ => String.mk (trimSpace p)
    | [] => ""
  else
    r.remoteAddr

/-! ## The client registry -/

/-- The struct `Client`. -/
structure Client where
  lastRequest : Time
  deriving DecidableEq, Repr

/-- The map `clients` (`map[string]*Client`), given by its lookup function:
`none` for a key without record.  Every key owns its own `Client`, so writing
through the pointer is an update at that key. -/
abbrev Registry := String → Option Client

/-- The value `make(map[string]*Client)`. -/
def Registry.empty : Registry := fun _ => none

/-- The assignment `clients[ip] = c`. -/
def Registry.set (m : Registry) (ip : String) (c : Client) : Registry :=
  fun k => if k = ip then some c else m k

/-! ## The response writer -/

/-- What an `http.ResponseWriter` of the server has been given for the
caller: the header map, the status code once a final `WriteHeader` has run,
the body bytes, and the informational (1xx) status lines sent ahead of it. -/
structure ResponseWriter where
  header : String → Option String
  status : Option Nat
  body : List Nat
  informational : List Nat

/-- A writer nothing has been written to. -/
def ResponseWriter.fresh : ResponseWriter :=
  { header := fun _ => none, status := none, body := [], informational := [] }

/-- The call `w.Header().Set(k, v)`; without effect on the response once the
header has been sent. -/
def ResponseWriter.setHeader (w : ResponseWriter) (k v : String) : ResponseWriter :=
  if w.status.isSome then w
  else { w with header := fun x => if x = k then some v else w.header x }

/-- The call `w.Header().Del(k)`. -/
def ResponseWriter.delHeader (w : ResponseWriter) (k : String) : ResponseWriter :=
  if w.status.isSome then w
  else { w with header := fun x => if x = k then none else w.header x }

/-- The call `w.WriteHeader(code)`, `none` when it panics.  A call after the
header has been written is ignored; otherwise a code that does not have three
digits panics (`checkWriteHeaderCode`), a 1xx code other than 101 is sent as
an informational status line and leaves the final header unwritten, and any
other code becomes the status of the response. -/
def ResponseWriter.writeHeader (w : ResponseWriter) (code : Nat) : Option ResponseWriter :=
  if w.status.isSome then some w
  else if code < 100 ∨ code > 999 then none
  else if code ≤ 199 ∧ code ≠ 101 then
    some { w with informational := w.informational ++ [code] }
  else some { w with status := some code }

/-- The function `bodyAllowedForStatus`: no body goes with a 1xx, 204 or 304
status. -/
def bodyAllowedForStatus (status : Nat) : Bool :=
  if 100 ≤ status ∧ status ≤ 199 then false
  else if status = 204 then false
  else if status = 304 then false
  else true

/-- The implicit `WriteHeader(http.StatusOK)` of a `Write` on a writer whose
header has not been written; the code 200 does not panic. -/
def ResponseWriter.ensureHeader (w : ResponseWriter) : ResponseWriter :=
  (w.writeHeader 200).getD w

/-- Whether `Write` takes body bytes (otherwise it returns
`ErrBodyNotAllowed`), once the header is written. -/
def ResponseWriter.bodyAllowed (w : ResponseWriter) : Bool :=
  match w.status with
  | some s => bodyAllowedForStatus s
  | none => true

/-- The call `w.Write(b)` with a caller that takes all of `b`: status 200 is
sent first when no header was written, and the bytes are appended when the
status allows a body. -/
def ResponseWriter.write (w : ResponseWriter) (b : List Nat) : ResponseWriter :=
  let w1 := w.ensureHeader
  if w1.bodyAllowed then { w1 with body := w1.body ++ b } else w1

/-- The bytes of an ASCII message. -/
def asciiBytes (s : String) : List Nat :=
  s.data.map Char.toNat

/-- The function `http.Error(w, msg, code)`: plain-text headers, the status,
then the message and a newline; `none` when `WriteHeader` panics. -/
def ResponseWriter.error (w : ResponseWriter) (msg : String) (code : Nat) :
    Option ResponseWriter :=
  let w1 := w.delHeader "Content-Length"
  let w2 := w1.setHeader "Content-Type" "text/plain; charset=utf-8"
  let w3 := w2.setHeader "X-Content-Type-Options" "nosniff"
  match w3.writeHeader code with
  | none => none
  | some w4 => some (w4.write (asciiBytes msg ++ [10]))

/-! ## Effects, environment and handler context -/

/-- The calls a handler makes outside itself, in the order it makes them. -/
inductive Effect where
  | muLock
  | muUnlock
  | mapRead (ip : String)
  | timeNow (t : Time)
  | mapWrite (ip : String) (t : Time)
  | callNext
  | httpError (code : Nat)
  | clientGet (target : String)
  | writeHeader (code : Nat)
  | ioCopy (n : Nat)
  | logPrintf
  deriving DecidableEq, Repr

/-- The result of `client.Get`: an error (network failure or timeout), or a
response with its status code and the body the upstream sends. -/
inductive GetResult where
  | err
  | resp (statusCode : Nat) (body : List Nat)
  deriving DecidableEq, Repr

/-- What the outside world supplies while one request is handled. -/
structure Env where
  /-- The value `time.Now()` returns. -/
  now : Time
  /-- The value `client.Get` returns if it is called. -/
  upstream : GetResult
  /-- Whether writing to the caller breaks: `some n` when the caller accepts
  only `n` bytes of body, `none` when it accepts everything. -/
  copyBreak : Option Nat
  /-- Whether reading `resp.Body` breaks: `some n` when the read returns an
  error after `n` bytes (a truncated body, the client timeout running out),
  `none` when the body is read to its end. -/
  readBreak : Option Nat
  deriving DecidableEq, Repr

/-- Everything a handler invocation can touch: the response writer of this
request, the package-level registry, and the trace of calls made so far;
`panicked` tells that the handler ended in a panic, which the server recovers
by closing the connection without sending what was not yet sent. -/
structure Ctx where
  w : ResponseWriter
  clients : Registry
  trace : List Effect
  panicked : Bool := false

/-- Record a call at the end of the trace. -/
def Ctx.emit (c : Ctx) (e : Effect) : Ctx :=
  { c with trace := c.trace ++ [e] }

/-- The call `http.Error(w, msg, code)` made by a handler. -/
def httpError (c : Ctx) (msg : String) (code : Nat) : Ctx :=
  match c.w.error msg code with
  | some w1 => { c.emit (Effect.httpError code) with w := w1 }
  | none => { c.emit (Effect.httpError code) with panicked := true }

/-- The type `http.HandlerFunc`, with the environment made explicit. -/
abbrev HandlerFunc := Env → Request → Ctx → Ctx

/-! ## The handlers -/

/-- The bytes `resp.Body` yields before its end or its error. -/
def bodyRead (env : Env) (body : List Nat) : List Nat :=
  match env.readBreak with
  | none => body
  | some n => body.take n

/-- The number of the bytes `data` that the `Write` calls of `io.Copy` get to
the caller through the writer `w`: none when the status allows no body,
otherwise as many as the caller accepts. -/
def bytesTaken (env : Env) (w : ResponseWriter) (data : List Nat) : Nat :=
  if w.ensureHeader.bodyAllowed then
    match env.copyBreak with
    | none => data.length
    | some n => min n data.length
  else 0

/-- The statement `io.Copy(w, resp.Body)` and the log line on failure.  The
copy calls `Write` only when it has read bytes; it fails when a `Write` does
not take all its bytes or when the read ends in an error. -/
def copyBody (env : Env) (body : List Nat) (c : Ctx) : Ctx :=
  let data := bodyRead env body
  if data = [] then
    let c1 := c.emit (Effect.ioCopy 0)
    if env.readBreak.isSome then c1.emit Effect.logPrintf else c1
  else
    let n := bytesTaken env c.w data
    let c1 := { c.emit (Effect.ioCopy n) with w := c.w.write (data.take n) }
    if n < data.length ∨ env.readBreak.isSome then c1.emit Effect.logPrintf else c1

/-- The function `handleAnalysis`.  The branch on the error of `url.Parse` is
left out: its argument is the constant `pythonServiceHost + "/analyze"`,
which parses.  When `w.WriteHeader` panics the handler stops there. -/
def handleAnalysis : HandlerFunc := fun env r c =>
  if r.method ≠ "GET" then
    httpError c "Method not allowed" 405
  else
    let target := r.target
    if target = "" then
      httpError c "Query parameter \x27target\x27 is required." 400
    else
      let c1 := c.emit (Effect.clientGet target)
      match env.upstream with
      | GetResult.err =>
        httpError (c1.emit Effect.logPrintf)
          "503 Service Unavailable (Python backend timeout or error)" 503
      | GetResult.resp statusCode body =>
        let c2 := { c1 with w := c1.w.setHeader "Content-Type" "application/json" }
        let c3 := c2.emit (Effect.writeHeader statusCode)
        match c2.w.writeHeader statusCode with
        | none => { c3 with panicked := true }
        | some w1 => copyBody env body { c3 with w := w1 }

/-- The function `rateLimitMiddleware`.  The deferred `mu.Unlock()` runs when
the returned handler returns, after whichever branch was taken. -/
def rateLimitMiddleware (next : HandlerFunc) : HandlerFunc := fun env r c =>
  let ip := getClientIP r
  let c0 := c.emit Effect.muLock
  let c1 := c0.emit (Effect.mapRead ip)
  let now := env.now
  let c2 := c1.emit (Effect.timeNow now)
  let done :=
    match c2.clients ip with
    | none =>
      let c3 := { c2.emit (Effect.mapWrite ip now) with
                  clients := c2.clients.set ip { lastRequest := now } }
      next env r (c3.emit Effect.callNext)
    | some client =>
      if timeSub now client.lastRequest < rateLimitDuration then
        httpError c2 "429 Too Many Requests: Rate limit exceeded. Try again later." 429
      else
        let c3 := { c2.emit (Effect.mapWrite ip now) with
                    clients := c2.clients.set ip { client with lastRequest := now } }
        next env r (c3.emit Effect.callNext)
  done.emit Effect.muUnlock

/-- The handler `main` registers for `/analyze`. -/
def pipeline : HandlerFunc :=
  rateLimitMiddleware handleAnalysis

/-! ## Serving requests -/

/-- One request served by `pipeline` on a fresh response writer and an empty
trace, the registry being `clients`. -/
def serve (clients : Registry) (env : Env) (r : Request) : Ctx :=
  pipeline env r { w := ResponseWriter.fresh, clients := clients, trace := [] }

/-- Whether the request was handed to `next`. -/
def Ctx.passed (c : Ctx) : Bool :=
  c.trace.contains Effect.callNext

/-- The registry after a sequence of requests, served one after the other. -/
def clientsAfter (clients : Registry) : List (Env × Request) → Registry
  | [] => clients
  | (env, r) :: rest => clientsAfter (serve clients env r).clients rest

/-- The outcomes of a sequence of requests, served one after the other. -/
def serveAll (clients : Registry) : List (Env × Request) → List Ctx
  | [] => []
  | (env, r) :: rest =>
    let c := serve clients env r
    c :: serveAll c.clients rest

/-- The identifier and clock reading of every request of the sequence that
was handed to `next`, in order. -/
def passedLog (clients : Registry) : List (Env × Request) → List (String × Time)
  | [] => []
  | (env, r) :: rest =>
    let c := serve clients env r
    if c.passed then (getClientIP r, env.now) :: passedLog c.clients rest
    else passedLog c.clients rest

/-- The position of the first occurrence of an effect in a trace. -/
def firstIndex (e : Effect) (t : List Effect) : Option Nat :=
  let i := t.indexOf e
  if i < t.length then some i else none

/-! ## Sample inputs -/

/-- A request with the given method and forwarding header, from the peer
`10.0.0.1:40000`, asking for the target `example.com`. -/
def sampleRequest (method xff : String) : Request :=
  { method := method, xForwardedFor := xff, remoteAddr := "10.0.0.1:40000",
    target := "example.com" }

/-- The environment at `sec` seconds on the clock, with an upstream that
answers 200 with the two-byte body of an empty JSON object, read to its end,
and a caller that reads everything. -/
def envAt (sec : Int) : Env :=
  { now := sec * Second, upstream := GetResult.resp 200 [123, 125], copyBreak := none,
    readBreak := none }

/-- The environment at `sec` seconds on the clock, with an upstream that
fails. -/
def envDownAt (sec : Int) : Env :=
  { now := sec * Second, upstream := GetResult.err, copyBreak := none, readBreak := none }

/-! ## Basic facts about the embedding -/

theorem timeSub_lt_cooldown (t u : Time) :
    timeSub t u < rateLimitDuration ↔ t - u < rateLimitDuration := by
  unfold timeSub rateLimitDuration Second maxDuration minDuration
  dsimp only
  have hlo : (-(2 ^ 63) : Int) < 3 * 1000000000 := by norm_num
  have hhi : (3 * 1000000000 : Int) < 2 ^ 63 - 1 := by norm_num
  constructor
  · intro h
    split_ifs at h with h1 h2
    · exact absurd h (not_lt.mpr (le_of_lt hhi))
    · exact lt_trans h2 hlo
    · exact h
  · intro h
    split_ifs with h1 h2
    · exact absurd (lt_trans h hhi) (not_lt.mpr (le_of_lt h1))
    · exact hlo
    · exact h

theorem httpError_clients (c : Ctx) (msg : String) (code : Nat) :
    (httpError c msg code).clients = c.clients := by
  unfold httpError
  split <;> rfl

theorem httpError_trace (c : Ctx) (msg : String) (code : Nat) :
    (httpError c msg code).trace = c.trace ++ [Effect.httpError code] := by
  unfold httpError
  split <;> rfl

theorem copyBody_clients (env : Env) (body : List Nat) (c : Ctx) :
    (copyBody env body c).clients = c.clients := by
  unfold copyBody
  dsimp only
  split_ifs <;> rfl

theorem copyBody_trace (env : Env) (body : List Nat) (c : Ctx) :
    ∃ t, (copyBody env body c).trace = c.trace ++ t ∧ Effect.callNext ∉ t ∧
      Effect.muLock ∉ t ∧ Effect.muUnlock ∉ t := by
  unfold copyBody
  dsimp only
  split_ifs
  · exact ⟨[Effect.ioCopy 0, Effect.logPrintf], by simp [Ctx.emit], by simp, by simp, by simp⟩
  · exact ⟨[Effect.ioCopy 0], by simp [Ctx.emit], by simp, by simp, by simp⟩
  · exact ⟨[Effect.ioCopy (bytesTaken env c.w (bodyRead env body)), Effect.logPrintf],
      by simp [Ctx.emit], by simp, by simp, by simp⟩
  · exact ⟨[Effect.ioCopy (bytesTaken env c.w (bodyRead env body))],
      by simp [Ctx.emit], by simp, by simp, by simp⟩

theorem handleAnalysis_clients (env : Env) (r : Request) (c : Ctx) :
    (handleAnalysis env r c).clients = c.clients := by
  unfold handleAnalysis
  dsimp only
  split_ifs
  · exact httpError_clients _ _ _
  · exact httpError_clients _ _ _
  · split
    · exact httpError_clients _ _ _
    · split
      · rfl
      · rw [copyBody_clients]; rfl

theorem handleAnalysis_trace (env : Env) (r : Request) (c : Ctx) :
    ∃ t, (handleAnalysis env r c).trace = c.trace ++ t ∧ Effect.callNext ∉ t ∧
      Effect.muLock ∉ t ∧ Effect.muUnlock ∉ t := by
  unfold handleAnalysis
  dsimp only
  split_ifs
  · exact ⟨[Effect.httpError 405], httpError_trace _ _ _, by simp, by simp, by simp⟩
  · exact ⟨[Effect.httpError 400], httpError_trace _ _ _, by simp, by simp, by simp⟩
  · split
    · exact ⟨[Effect.clientGet r.target, Effect.logPrintf, Effect.httpError 503],
        by simp [httpError_trace, Ctx.emit], by simp, by simp, by simp⟩
    · rename_i statusCode body _
      split
      · exact ⟨[Effect.clientGet r.target, Effect.writeHeader statusCode],
          by simp [Ctx.emit], by simp, by simp, by simp⟩
      · rename_i w1 _
        obtain ⟨t, ht, h1, h2, h3⟩ := copyBody_trace env body
          { w := w1, clients := c.clients,
            trace := c.trace ++ [Effect.clientGet r.target, Effect.writeHeader statusCode],
            panicked := c.panicked }
        refine ⟨[Effect.clientGet r.target, Effect.writeHeader statusCode] ++ t, ?_, ?_, ?_, ?_⟩
        · simp only [Ctx.emit, List.append_assoc, List.singleton_append] at ht ⊢
          exact ht
        · simpa using h1
        · simpa using h2
        · simpa using h3

/-- A request of an identifier without record: the record is created and the
request goes to `handleAnalysis`. -/
theorem serve_absent (clients : Registry) (env : Env) (r : Request)
    (h : clients (getClientIP r) = none) :
    serve clients env r =
      (handleAnalysis env r
        { w := ResponseWriter.fresh
          clients := clients.set (getClientIP r) { lastRequest := env.now }
          trace := [Effect.muLock, Effect.mapRead (getClientIP r), Effect.timeNow env.now,
            Effect.mapWrite (getClientIP r) env.now, Effect.callNext] }).emit
        Effect.muUnlock := by
  unfold serve pipeline rateLimitMiddleware
  simp [Ctx.emit, h]

/-- A request of an identifier whose record is younger than the cooldown: the
answer is 429 and nothing else happens. -/
theorem serve_hot (clients : Registry) (env : Env) (r : Request) (cl : Client)
    (h : clients (getClientIP r) = some cl)
    (hlt : env.now - cl.lastRequest < rateLimitDuration) :
    serve clients env r =
      (httpError
        { w := ResponseWriter.fresh
          clients := clients
          trace := [Effect.muLock, Effect.mapRead (getClientIP r), Effect.timeNow env.now] }
        "429 Too Many Requests: Rate limit exceeded. Try again later." 429).emit
        Effect.muUnlock := by
  unfold serve pipeline rateLimitMiddleware
  simp [Ctx.emit, h, (timeSub_lt_cooldown env.now cl.lastRequest).mpr hlt]

/-- A request of an identifier whose record is at least the cooldown old: the
record is set to the clock reading and the request goes to `handleAnalysis`. -/
theorem serve_cooled (clients : Registry) (env : Env) (r : Request) (cl : Client)
    (h : clients (getClientIP r) = some cl)
    (hge : rateLimitDuration ≤ env.now - cl.lastRequest) :
    serve clients env r =
      (handleAnalysis env r
        { w := ResponseWriter.fresh
          clients := clients.set (getClientIP r) { lastRequest := env.now }
          trace := [Effect.muLock, Effect.mapRead (getClientIP r), Effect.timeNow env.now,
            Effect.mapWrite (getClientIP r) env.now, Effect.callNext] }).emit
        Effect.muUnlock := by
  have hn : ¬ timeSub env.now cl.lastRequest < rateLimitDuration := by
    rw [timeSub_lt_cooldown]; exact not_lt.mpr hge
  unfold serve pipeline rateLimitMiddleware
  simp [Ctx.emit, h, hn]

theorem passed_emit_muUnlock (c : Ctx) :
    (c.emit Effect.muUnlock).passed = c.passed := by
  simp [Ctx.passed, Ctx.emit]

theorem serve_absent_passed (clients : Registry) (env : Env) (r : Request)
    (h : clients (getClientIP r) = none) : (serve clients env r).passed = true := by
  rw [serve_absent clients env r h, passed_emit_muUnlock]
  obtain ⟨t, ht, _⟩ := handleAnalysis_trace env r
    { w := ResponseWriter.fresh
      clients := clients.set (getClientIP r) { lastRequest := env.now }
      trace := [Effect.muLock, Effect.mapRead (getClientIP r), Effect.timeNow env.now,
        Effect.mapWrite (getClientIP r) env.now, Effect.callNext] }
  simp [Ctx.passed, ht]

theorem serve_cooled_passed (clients : Registry) (env : Env) (r : Request) (cl : Client)
    (h : clients (getClientIP r) = some cl)
    (hge : rateLimitDuration ≤ env.now - cl.lastRequest) :
    (serve clients env r).passed = true := by
  rw [serve_cooled clients env r cl h hge, passed_emit_muUnlock]
  obtain ⟨t, ht, _⟩ := handleAnalysis_trace env r
    { w := ResponseWriter.fresh
      clients := clients.set (getClientIP r) { lastRequest := env.now }
      trace := [Effect.muLock, Effect.mapRead (getClientIP r), Effect.timeNow env.now,
        Effect.mapWrite (getClientIP r) env.now, Effect.callNext] }
  simp [Ctx.passed, ht]

theorem serve_hot_passed (clients : Registry) (env : Env) (r : Request) (cl : Client)
    (h : clients (getClientIP r) = some cl)
    (hlt : env.now - cl.lastRequest < rateLimitDuration) :
    (serve clients env r).passed = false := by
  rw [serve_hot clients env r cl h hlt, passed_emit_muUnlock]
  simp [Ctx.passed, httpError_trace]

theorem serve_passed_clients (clients : Registry) (env : Env) (r : Request)
    (h : (serve clients env r).passed = true) :
    (serve clients env r).clients =
      clients.set (getClientIP r) { lastRequest := env.now } := by
  cases hc : clients (getClientIP r) with
  | none =>
    rw [serve_absent clients env r hc]
    exact handleAnalysis_clients _ _ _
  | some cl =>
    by_cases hlt : env.now - cl.lastRequest < rateLimitDuration
    · rw [serve_hot_passed clients env r cl hc hlt] at h
      exact absurd h (by simp)
    · rw [serve_cooled clients env r cl hc (not_lt.mp hlt)]
      exact handleAnalysis_clients _ _ _

theorem serve_rejected_clients (clients : Registry) (env : Env) (r : Request)
    (h : (serve clients env r).passed = false) :
    (serve clients env r).clients = clients := by
  cases hc : clients (getClientIP r) with
  | none =>
    rw [serve_absent_passed clients env r hc] at h
    exact absurd h (by simp)
  | some cl =>
    by_cases hlt : env.now - cl.lastRequest < rateLimitDuration
    · rw [serve_hot clients env r cl hc hlt]
      rfl
    · rw [serve_cooled_passed clients env r cl hc (not_lt.mp hlt)] at h
      exact absurd h (by simp)

/-! ## Admission -/

theorem serve_passed_iff (clients : Registry) (env : Env) (r : Request) :
    (serve clients env r).passed = true ↔
      (clients (getClientIP r) = none ∨
        ∃ cl, clients (getClientIP r) = some cl ∧
          rateLimitDuration ≤ env.now - cl.lastRequest) := by
  constructor
  · intro h
    cases hc : clients (getClientIP r) with
    | none => exact Or.inl rfl
    | some cl =>
      refine Or.inr ⟨cl, rfl, ?_⟩
      by_contra hlt
      rw [serve_hot_passed clients env r cl hc (not_le.mp hlt)] at h
      exact absurd h (by simp)
  · rintro (h | ⟨cl, hc, hge⟩)
    · exact serve_absent_passed clients env r h
    · exact serve_cooled_passed clients env r cl hc hge

/-- C2: the request is handed to `next` exactly when the registry has no
record for its identifier or the clock reading minus the recorded
`lastRequest` is at least `rateLimitDuration`, which is 3 seconds.  In
particular a request of an identifier without record is handed on, and so is
a request arriving exactly `rateLimitDuration` after the recorded time. -/
theorem rateLimit_decision (clients : Registry) (env : Env) (r : Request) :
    ((serve clients env r).passed = true ↔
      (clients (getClientIP r) = none ∨
        ∃ cl, clients (getClientIP r) = some cl ∧
          rateLimitDuration ≤ env.now - cl.lastRequest)) ∧
    rateLimitDuration = 3 * 1000000000 ∧
    (serve (fun k => if k = getClientIP r then none else clients k) env r).passed = true ∧
    (∀ t : Time, (serve (clients.set (getClientIP r) { lastRequest := t })
        { env with now := t + rateLimitDuration } r).passed = true) := by
  refine ⟨serve_passed_iff clients env r, rfl, ?_, ?_⟩
  · exact serve_absent_passed _ env r (by simp)
  · intro t
    refine serve_cooled_passed _ _ r { lastRequest := t } (by simp [Registry.set]) ?_
    show rateLimitDuration ≤ t + rateLimitDuration - t
    simp

/-- C3: the registry after a request is the registry before it when the
request is rejected, and the registry before it with the record of the
requesting identifier set to the clock reading when the request is handed to
`next`; the request is rejected exactly when a record is present and younger
than `rateLimitDuration`, and then the answer is 429. -/
theorem rejected_leaves_registry (clients : Registry) (env : Env) (r : Request) :
    (serve clients env r).clients =
      (if (serve clients env r).passed
        then fun k => if k = getClientIP r then some { lastRequest := env.now } else clients k
        else clients) ∧
    ((serve clients env r).passed = false ↔
      ∃ cl, clients (getClientIP r) = some cl ∧
        env.now - cl.lastRequest < rateLimitDuration) ∧
    ((serve clients env r).passed = false → (serve clients env r).w.status = some 429) := by
  refine ⟨?_, ⟨?_, ?_⟩, ?_⟩
  · cases hp : (serve clients env r).passed with
    | true => simpa [Registry.set] using serve_passed_clients clients env r hp
    | false => simpa using serve_rejected_clients clients env r hp
  · intro h
    cases hc : clients (getClientIP r) with
    | none =>
      rw [serve_absent_passed clients env r hc] at h
      exact absurd h (by simp)
    | some cl =>
      refine ⟨cl, rfl, ?_⟩
      by_contra hge
      rw [serve_cooled_passed clients env r cl hc (not_lt.mp hge)] at h
      exact absurd h (by simp)
  · rintro ⟨cl, hc, hlt⟩
    exact serve_hot_passed clients env r cl hc hlt
  · intro h
    cases hc : clients (getClientIP r) with
    | none =>
      rw [serve_absent_passed clients env r hc] at h
      exact absurd h (by simp)
    | some cl =>
      by_cases hlt : env.now - cl.lastRequest < rateLimitDuration
      · rw [serve_hot clients env r cl hc hlt]
        rfl
      · rw [serve_cooled_passed clients env r cl hc (not_lt.mp hlt)] at h
        exact absurd h (by simp)

theorem rejected_leaves_registry_witness :
    (serve (Registry.empty.set "1.2.3.4" { lastRequest := 0 }) (envAt 1)
        (sampleRequest "GET" "1.2.3.4")).passed = false ∧
    (serve (Registry.empty.set "1.2.3.4" { lastRequest := 0 }) (envAt 1)
        (sampleRequest "GET" "1.2.3.4")).w.status = some 429 :=
  ⟨by decide,
   (rejected_leaves_registry (Registry.empty.set "1.2.3.4" { lastRequest := 0 }) (envAt 1)
      (sampleRequest "GET" "1.2.3.4")).2.2 (by decide)⟩

/-! ## Rejections and the cooldown window -/

theorem serve_hot_status (clients : Registry) (env : Env) (r : Request) (cl : Client)
    (h : clients (getClientIP r) = some cl)
    (hlt : env.now - cl.lastRequest < rateLimitDuration) :
    (serve clients env r).w.status = some 429 := by
  rw [serve_hot clients env r cl h hlt]
  rfl

/-- Requests of one identifier that all arrive inside the window opened by
its record are all rejected and leave the registry as it is. -/
theorem hot_run (ip : String) (t0 : Time) :
    ∀ (evs : List (Env × Request)) (clients : Registry),
      clients ip = some { lastRequest := t0 } →
      (∀ e ∈ evs, getClientIP e.2 = ip ∧ t0 ≤ e.1.now ∧
        e.1.now < t0 + rateLimitDuration) →
      clientsAfter clients evs = clients ∧
        ∀ c ∈ serveAll clients evs, c.passed = false ∧ c.w.status = some 429 := by
  intro evs
  induction evs with
  | nil =>
    intro clients _ _
    exact ⟨rfl, by simp [serveAll]⟩
  | cons e rest ih =>
    intro clients hrec hevs
    obtain ⟨env, r⟩ := e
    obtain ⟨hip, _, hhi⟩ := hevs (env, r) (List.mem_cons_self _ _)
    have hip1 : getClientIP r = ip := hip
    have hc : clients (getClientIP r) = some { lastRequest := t0 } := by rw [hip1]; exact hrec
    have hlt : env.now - t0 < rateLimitDuration := by
      have hhi1 : env.now < t0 + rateLimitDuration := hhi
      linarith
    have hp := serve_hot_passed clients env r _ hc hlt
    have hst := serve_hot_status clients env r _ hc hlt
    have hcl := serve_rejected_clients clients env r hp
    have hrest := ih clients hrec (fun e he => hevs e (List.mem_cons_of_mem _ he))
    constructor
    · show clientsAfter (serve clients env r).clients rest = clients
      rw [hcl]; exact hrest.1
    · intro c hcmem
      have hcmem1 : c ∈ serve clients env r :: serveAll (serve clients env r).clients rest :=
        hcmem
      rw [hcl] at hcmem1
      rcases List.mem_cons.mp hcmem1 with h1 | h1
      · rw [h1]; exact ⟨hp, hst⟩
      · exact hrest.2 c h1

/-- C4: once a request of an identifier has been handed to `next` at time
`T0`, however many requests of that identifier follow at times in
`[T0, T0 + rateLimitDuration)`, each of them is rejected with 429 and a
request of that identifier at any time from `T0 + rateLimitDuration` on is
handed to `next`.  With a cooldown of 3 s: requests of `1.2.3.4` at 0 s, 1 s
and 4 s are passed, rejected with 429, passed. -/
theorem rejections_keep_window :
    (∀ (clients : Registry) (env0 : Env) (r0 : Request) (evs : List (Env × Request))
        (env : Env) (r : Request),
      (serve clients env0 r0).passed = true →
      (∀ e ∈ evs, getClientIP e.2 = getClientIP r0 ∧ env0.now ≤ e.1.now ∧
        e.1.now < env0.now + rateLimitDuration) →
      getClientIP r = getClientIP r0 →
      env0.now + rateLimitDuration ≤ env.now →
      (∀ c ∈ serveAll (serve clients env0 r0).clients evs,
        c.passed = false ∧ c.w.status = some 429) ∧
      (serve (clientsAfter (serve clients env0 r0).clients evs) env r).passed = true) ∧
    (serveAll Registry.empty
        [(envAt 0, sampleRequest "GET" "1.2.3.4"), (envAt 1, sampleRequest "GET" "1.2.3.4"),
         (envAt 4, sampleRequest "GET" "1.2.3.4")]).map
      (fun c => (c.passed, c.w.status)) =
      [(true, some 200), (false, some 429), (true, some 200)] := by
  refine ⟨?_, by decide⟩
  intro clients env0 r0 evs env r h0 hevs hr hnow
  have hcl := serve_passed_clients clients env0 r0 h0
  have hrec : (serve clients env0 r0).clients (getClientIP r0) =
      some { lastRequest := env0.now } := by
    rw [hcl]; simp [Registry.set]
  obtain ⟨hafter, hall⟩ := hot_run (getClientIP r0) env0.now evs _ hrec hevs
  refine ⟨hall, ?_⟩
  rw [hafter]
  refine serve_cooled_passed _ env r { lastRequest := env0.now } (by rw [hr]; exact hrec) ?_
  show rateLimitDuration ≤ env.now - env0.now
  linarith

theorem rejections_keep_window_witness :
    (serve Registry.empty (envAt 0) (sampleRequest "GET" "1.2.3.4")).passed = true ∧
    (∀ c ∈ serveAll (serve Registry.empty (envAt 0) (sampleRequest "GET" "1.2.3.4")).clients
        [(envAt 1, sampleRequest "GET" "1.2.3.4"), (envAt 2, sampleRequest "GET" " 1.2.3.4")],
      c.passed = false ∧ c.w.status = some 429) ∧
    (serve (clientsAfter (serve Registry.empty (envAt 0) (sampleRequest "GET" "1.2.3.4")).clients
        [(envAt 1, sampleRequest "GET" "1.2.3.4"), (envAt 2, sampleRequest "GET" " 1.2.3.4")])
      (envAt 3) (sampleRequest "GET" "1.2.3.4, 10.1.1.1")).passed = true :=
  ⟨by decide,
   rejections_keep_window.1 Registry.empty (envAt 0) (sampleRequest "GET" "1.2.3.4")
     [(envAt 1, sampleRequest "GET" "1.2.3.4"), (envAt 2, sampleRequest "GET" " 1.2.3.4")]
     (envAt 3) (sampleRequest "GET" "1.2.3.4, 10.1.1.1")
     (by decide) (by decide) (by decide) (by decide)⟩

/-! ## Spacing of admitted requests -/

theorem passedLog_sublist :
    ∀ (evs : List (Env × Request)) (clients : Registry),
      (passedLog clients evs).Sublist (evs.map (fun e => (getClientIP e.2, e.1.now))) := by
  intro evs
  induction evs with
  | nil => intro clients; exact List.Sublist.slnil
  | cons e rest ih =>
    intro clients
    obtain ⟨env, r⟩ := e
    show (if (serve clients env r).passed
        then (getClientIP r, env.now) :: passedLog (serve clients env r).clients rest
        else passedLog (serve clients env r).clients rest).Sublist _
    split_ifs
    · exact (ih _).cons₂ _
    · exact (ih _).cons _

theorem rateLimitDuration_pos : 0 < rateLimitDuration := by
  unfold rateLimitDuration Second
  norm_num

/-- Every logged request lies at least the cooldown after the record its
identifier had at the start, and logged requests of one identifier lie at
least the cooldown apart. -/
theorem passedLog_sep :
    ∀ (evs : List (Env × Request)) (clients : Registry),
      (∀ p ∈ passedLog clients evs, ∀ cl, clients p.1 = some cl →
        rateLimitDuration ≤ p.2 - cl.lastRequest) ∧
      (passedLog clients evs).Pairwise
        (fun a b => a.1 = b.1 → rateLimitDuration ≤ b.2 - a.2) := by
  intro evs
  induction evs with
  | nil => intro clients; exact ⟨by simp [passedLog], List.Pairwise.nil⟩
  | cons e rest ih =>
    intro clients
    obtain ⟨env, r⟩ := e
    have hunf : passedLog clients ((env, r) :: rest) =
        if (serve clients env r).passed
        then (getClientIP r, env.now) :: passedLog (serve clients env r).clients rest
        else passedLog (serve clients env r).clients rest := rfl
    rw [hunf]
    cases hp : (serve clients env r).passed with
    | false =>
      have hcl := serve_rejected_clients clients env r hp
      rw [hcl]
      simpa using ih clients
    | true =>
      have hcl := serve_passed_clients clients env r hp
      obtain ⟨ih1, ih2⟩ := ih (serve clients env r).clients
      have hhead : ∀ cl, clients (getClientIP r) = some cl →
          rateLimitDuration ≤ env.now - cl.lastRequest := by
        intro cl hc
        rcases ((serve_passed_iff clients env r).mp hp) with hn | ⟨cl1, hc1, hge⟩
        · rw [hn] at hc; exact absurd hc (by simp)
        · rw [hc1] at hc
          cases hc
          exact hge
      have htail : ∀ p ∈ passedLog (serve clients env r).clients rest,
          p.1 = getClientIP r → rateLimitDuration ≤ p.2 - env.now := by
        intro p hpm hpe
        have := ih1 p hpm { lastRequest := env.now } (by rw [hcl, hpe]; simp [Registry.set])
        exact this
      simp only [if_true]
      constructor
      · intro p hpm cl hc
        rcases List.mem_cons.mp hpm with h1 | h1
        · rw [h1] at hc ⊢
          exact hhead cl hc
        · by_cases hpe : p.1 = getClientIP r
          · have h2 := htail p h1 hpe
            rw [hpe] at hc
            have h3 := hhead cl hc
            have hpos := rateLimitDuration_pos
            linarith
          · refine ih1 p h1 cl ?_
            rw [hcl]
            simpa [Registry.set, hpe] using hc
      · refine List.Pairwise.cons ?_ ih2
        intro p hpm hpe
        exact htail p hpm hpe.symm

/-- C1: under a non-decreasing clock, for every sequence of requests served
from the empty registry, any two requests handed to `next` for the same
identifier have clock readings at least `rateLimitDuration` (3 s) apart, the
later one in the sequence being the later one on the clock. -/
theorem admitted_requests_apart (evs : List (Env × Request))
    (hclock : (evs.map (fun e => e.1.now)).Pairwise (fun a b => a ≤ b)) :
    (passedLog Registry.empty evs).Pairwise
      (fun a b => a.2 ≤ b.2 ∧ (a.1 = b.1 → rateLimitDuration ≤ b.2 - a.2)) := by
  have hmono : (evs.map (fun e => (getClientIP e.2, e.1.now))).Pairwise
      (fun a b => a.2 ≤ b.2) := by
    rw [List.pairwise_map] at hclock ⊢
    exact hclock
  have h1 := hmono.sublist (passedLog_sublist evs Registry.empty)
  have h2 := (passedLog_sep evs Registry.empty).2
  exact h1.imp₂ (fun a b hab hsep => ⟨hab, hsep⟩) h2

theorem admitted_requests_apart_witness :
    ([(envAt 0, sampleRequest "GET" "1.2.3.4"), (envAt 1, sampleRequest "GET" "1.2.3.4"),
      (envAt 2, sampleRequest "GET" "5.6.7.8"), (envAt 4, sampleRequest "GET" "1.2.3.4")].map
      (fun e => e.1.now)).Pairwise (fun a b => a ≤ b) ∧
    passedLog Registry.empty
      [(envAt 0, sampleRequest "GET" "1.2.3.4"), (envAt 1, sampleRequest "GET" "1.2.3.4"),
       (envAt 2, sampleRequest "GET" "5.6.7.8"), (envAt 4, sampleRequest "GET" "1.2.3.4")] =
      [("1.2.3.4", 0), ("5.6.7.8", 2000000000), ("1.2.3.4", 4000000000)] ∧
    (passedLog Registry.empty
      [(envAt 0, sampleRequest "GET" "1.2.3.4"), (envAt 1, sampleRequest "GET" "1.2.3.4"),
       (envAt 2, sampleRequest "GET" "5.6.7.8"), (envAt 4, sampleRequest "GET" "1.2.3.4")]).Pairwise
      (fun a b => a.2 ≤ b.2 ∧ (a.1 = b.1 → rateLimitDuration ≤ b.2 - a.2)) :=
  ⟨by decide, by decide,
   admitted_requests_apart
     [(envAt 0, sampleRequest "GET" "1.2.3.4"), (envAt 1, sampleRequest "GET" "1.2.3.4"),
      (envAt 2, sampleRequest "GET" "5.6.7.8"), (envAt 4, sampleRequest "GET" "1.2.3.4")]
     (by decide)⟩

/-! ## Order of the method check, the admission step and the lock -/

/-- C5, counterexample: a POST of an identifier inside its cooldown is
answered 429, not 405; and a POST of an identifier without record is answered
405 after the registry has recorded it. -/
theorem method_check_counterexample :
    (sampleRequest "POST" "1.2.3.4").method ≠ "GET" ∧
    (serve (Registry.empty.set "1.2.3.4" { lastRequest := 0 }) (envAt 1)
      (sampleRequest "POST" "1.2.3.4")).w.status = some 429 ∧
    (serve Registry.empty (envAt 1) (sampleRequest "POST" "1.2.3.4")).w.status = some 405 ∧
    Registry.empty "1.2.3.4" = none ∧
    (serve Registry.empty (envAt 1) (sampleRequest "POST" "1.2.3.4")).clients "1.2.3.4" =
      some { lastRequest := 1000000000 } := by
  decide

/-- C5, amended: the method check comes after the admission step.  A request
whose method is not GET first goes through admission: when it is handed on,
the record of its identifier is set to the clock reading and the answer is
405, without upstream call; when it is rejected the answer is 429 and the
registry is left as it was. -/
theorem method_check_after_admission (clients : Registry) (env : Env) (r : Request)
    (hm : r.method ≠ "GET") :
    ((serve clients env r).passed = true →
      (serve clients env r).w.status = some 405 ∧
      (serve clients env r).clients =
        (fun k => if k = getClientIP r then some { lastRequest := env.now } else clients k) ∧
      (serve clients env r).trace =
        [Effect.muLock, Effect.mapRead (getClientIP r), Effect.timeNow env.now,
          Effect.mapWrite (getClientIP r) env.now, Effect.callNext, Effect.httpError 405,
          Effect.muUnlock]) ∧
    ((serve clients env r).passed = false →
      (serve clients env r).w.status = some 429 ∧
      (serve clients env r).clients = clients ∧
      (serve clients env r).trace =
        [Effect.muLock, Effect.mapRead (getClientIP r), Effect.timeNow env.now,
          Effect.httpError 429, Effect.muUnlock]) := by
  have hgo : ∀ c : Ctx, handleAnalysis env r c = httpError c "Method not allowed" 405 := by
    intro c
    unfold handleAnalysis
    simp [hm]
  constructor
  · intro hp
    refine ⟨?_, ?_, ?_⟩
    · rcases (serve_passed_iff clients env r).mp hp with hn | ⟨cl, hc, hge⟩
      · rw [serve_absent clients env r hn, hgo]; rfl
      · rw [serve_cooled clients env r cl hc hge, hgo]; rfl
    · simpa [Registry.set] using serve_passed_clients clients env r hp
    · rcases (serve_passed_iff clients env r).mp hp with hn | ⟨cl, hc, hge⟩
      · rw [serve_absent clients env r hn, hgo]; rfl
      · rw [serve_cooled clients env r cl hc hge, hgo]; rfl
  · intro hp
    have hex : ∃ cl, clients (getClientIP r) = some cl ∧
        env.now - cl.lastRequest < rateLimitDuration := by
      cases hc : clients (getClientIP r) with
      | none =>
        rw [serve_absent_passed clients env r hc] at hp
        exact absurd hp (by simp)
      | some cl =>
        refine ⟨cl, rfl, ?_⟩
        by_contra hge
        rw [serve_cooled_passed clients env r cl hc (not_lt.mp hge)] at hp
        exact absurd hp (by simp)
    obtain ⟨cl, hc, hlt⟩ := hex
    refine ⟨serve_hot_status clients env r cl hc hlt,
      serve_rejected_clients clients env r hp, ?_⟩
    rw [serve_hot clients env r cl hc hlt]; rfl

theorem method_check_after_admission_witness :
    (sampleRequest "POST" "1.2.3.4").method ≠ "GET" ∧
    ((serve Registry.empty (envAt 1) (sampleRequest "POST" "1.2.3.4")).passed = true ∧
      (serve Registry.empty (envAt 1) (sampleRequest "POST" "1.2.3.4")).w.status = some 405 ∧
      (serve Registry.empty (envAt 1) (sampleRequest "POST" "1.2.3.4")).clients =
        (fun k => if k = getClientIP (sampleRequest "POST" "1.2.3.4")
          then some { lastRequest := (envAt 1).now } else Registry.empty k) ∧
      (serve Registry.empty (envAt 1) (sampleRequest "POST" "1.2.3.4")).trace =
        [Effect.muLock, Effect.mapRead (getClientIP (sampleRequest "POST" "1.2.3.4")),
          Effect.timeNow (envAt 1).now,
          Effect.mapWrite (getClientIP (sampleRequest "POST" "1.2.3.4")) (envAt 1).now,
          Effect.callNext, Effect.httpError 405, Effect.muUnlock]) :=
  ⟨by decide, by decide,
   (method_check_after_admission Registry.empty (envAt 1) (sampleRequest "POST" "1.2.3.4")
     (by decide)).1 (by decide)⟩

/-- The mutex is taken first and released last: whatever a request does in
between, the call of `next` and all of `handleAnalysis` included, happens with
the mutex held. -/
theorem serve_trace_locked (clients : Registry) (env : Env) (r : Request) :
    ∃ mid, (serve clients env r).trace = Effect.muLock :: mid ++ [Effect.muUnlock] ∧
      Effect.muLock ∉ mid ∧ Effect.muUnlock ∉ mid := by
  cases hc : clients (getClientIP r) with
  | none =>
    rw [serve_absent clients env r hc]
    obtain ⟨t, ht, _, hl, hu⟩ := handleAnalysis_trace env r
      { w := ResponseWriter.fresh
        clients := clients.set (getClientIP r) { lastRequest := env.now }
        trace := [Effect.muLock, Effect.mapRead (getClientIP r), Effect.timeNow env.now,
          Effect.mapWrite (getClientIP r) env.now, Effect.callNext] }
    refine ⟨[Effect.mapRead (getClientIP r), Effect.timeNow env.now,
      Effect.mapWrite (getClientIP r) env.now, Effect.callNext] ++ t, ?_, ?_, ?_⟩
    · simp [Ctx.emit, ht]
    · simpa using hl
    · simpa using hu
  | some cl =>
    by_cases hlt : env.now - cl.lastRequest < rateLimitDuration
    · rw [serve_hot clients env r cl hc hlt]
      exact ⟨[Effect.mapRead (getClientIP r), Effect.timeNow env.now, Effect.httpError 429],
        rfl, by simp, by simp⟩
    · rw [serve_cooled clients env r cl hc (not_lt.mp hlt)]
      obtain ⟨t, ht, _, hl, hu⟩ := handleAnalysis_trace env r
        { w := ResponseWriter.fresh
          clients := clients.set (getClientIP r) { lastRequest := env.now }
          trace := [Effect.muLock, Effect.mapRead (getClientIP r), Effect.timeNow env.now,
            Effect.mapWrite (getClientIP r) env.now, Effect.callNext] }
      refine ⟨[Effect.mapRead (getClientIP r), Effect.timeNow env.now,
        Effect.mapWrite (getClientIP r) env.now, Effect.callNext] ++ t, ?_, ?_, ?_⟩
      · simp [Ctx.emit, ht]
      · simpa using hl
      · simpa using hu

/-- C6, the code at a failing input: for an admitted GET the trace of the
pipeline has `client.Get` at position 5 and the only `mu.Unlock` at position
8, after the header and the body have been written; the upstream call is made
while the mutex is held. -/
theorem upstream_get_under_lock :
    (serve Registry.empty (envAt 0) (sampleRequest "GET" "1.2.3.4")).trace =
      [Effect.muLock, Effect.mapRead "1.2.3.4", Effect.timeNow 0,
        Effect.mapWrite "1.2.3.4" 0, Effect.callNext, Effect.clientGet "example.com",
        Effect.writeHeader 200, Effect.ioCopy 2, Effect.muUnlock] ∧
    firstIndex (Effect.clientGet "example.com")
      (serve Registry.empty (envAt 0) (sampleRequest "GET" "1.2.3.4")).trace = some 5 ∧
    firstIndex Effect.muUnlock
      (serve Registry.empty (envAt 0) (sampleRequest "GET" "1.2.3.4")).trace = some 8 := by
  decide

/-! ## Client identity -/

theorem splitComma_head (s : List Char) :
    ∃ ps, splitComma s = s.takeWhile (fun c => decide (c ≠ ',')) :: ps := by
  induction s with
  | nil => exact ⟨[], rfl⟩
  | cons c cs ih =>
    obtain ⟨ps, hps⟩ := ih
    by_cases hc : c = ','
    · exact ⟨splitComma cs, by simp [splitComma, hc]⟩
    · exact ⟨ps, by simp [splitComma, hc, hps]⟩

theorem firstEntry_spec (s : List Char) :
    ',' ∉ s.takeWhile (fun c => decide (c ≠ ',')) ∧
    (s = s.takeWhile (fun c => decide (c ≠ ',')) ∨
      ∃ rest, s = s.takeWhile (fun c => decide (c ≠ ',')) ++ ',' :: rest) := by
  induction s with
  | nil => simp
  | cons c cs ih =>
    by_cases hc : c = ','
    · subst hc
      exact ⟨by simp, Or.inr ⟨cs, by simp⟩⟩
    · obtain ⟨h1, h2⟩ := ih
      have htw : (c :: cs).takeWhile (fun c => decide (c ≠ ',')) =
          c :: cs.takeWhile (fun c => decide (c ≠ ',')) := by
        simp [List.takeWhile, hc]
      rw [htw]
      refine ⟨?_, ?_⟩
      · intro hmem
        rcases List.mem_cons.mp hmem with h | h
        · exact hc h.symm
        · exact h1 h
      · rcases h2 with h | ⟨rest, h⟩
        · exact Or.inl (by rw [← h])
        · exact Or.inr ⟨rest, by rw [List.cons_append, ← h]⟩

theorem trimSpace_spec (s : List Char) :
    ∃ ws1 ws2 : List Char,
      s = ws1 ++ trimSpace s ++ ws2 ∧
      (∀ c ∈ ws1, isSpace c = true) ∧ (∀ c ∈ ws2, isSpace c = true) ∧
      (∀ c, (trimSpace s).head? = some c → isSpace c = false) ∧
      (∀ c, (trimSpace s).getLast? = some c → isSpace c = false) := by
  have hsplit : (s.dropWhile isSpace) =
      trimSpace s ++ ((s.dropWhile isSpace).reverse.takeWhile isSpace).reverse := by
    have h := List.takeWhile_append_dropWhile isSpace (s.dropWhile isSpace).reverse
    have h2 := congrArg List.reverse h
    rw [List.reverse_append, List.reverse_reverse] at h2
    exact h2.symm
  refine ⟨s.takeWhile isSpace, ((s.dropWhile isSpace).reverse.takeWhile isSpace).reverse,
    ?_, ?_, ?_, ?_, ?_⟩
  · rw [List.append_assoc, ← hsplit, List.takeWhile_append_dropWhile]
  · intro c hc
    exact List.mem_takeWhile_imp hc
  · intro c hc
    exact List.mem_takeWhile_imp (List.mem_reverse.mp hc)
  · intro c hc
    have hne : (s.dropWhile isSpace).head? = some c := by
      rw [hsplit, List.head?_append, hc]
      rfl
    have h := List.head?_dropWhile_not isSpace s
    rw [hne] at h
    exact h
  · intro c hc
    have h := List.head?_dropWhile_not isSpace (s.dropWhile isSpace).reverse
    have hl : (trimSpace s).getLast? =
        ((s.dropWhile isSpace).reverse.dropWhile isSpace).head? := by
      unfold trimSpace trimRight trimLeft
      rw [List.getLast?_reverse]
    rw [← hl, hc] at h
    exact h

theorem getClientIP_header (r : Request) (h : r.xForwardedFor ≠ "") :
    getClientIP r =
      String.mk (trimSpace (r.xForwardedFor.data.takeWhile (fun c => decide (c ≠ ',')))) := by
  obtain ⟨ps, hps⟩ := splitComma_head r.xForwardedFor.data
  unfold getClientIP
  simp [h, hps]

theorem getClientIP_no_header (r : Request) (h : r.xForwardedFor = "") :
    getClientIP r = r.remoteAddr := by
  unfold getClientIP
  simp [h]

/-- C7, counterexample: with the header `, 1.2.3.4` (a leading comma) and a
non-empty peer address the identifier is empty; the peer address is not
used. -/
theorem getClientIP_empty_counterexample :
    (sampleRequest "GET" ", 1.2.3.4").remoteAddr ≠ "" ∧
    trimSpace ((sampleRequest "GET" ", 1.2.3.4").xForwardedFor.data.takeWhile
      (fun c => decide (c ≠ ','))) = [] ∧
    getClientIP (sampleRequest "GET" ", 1.2.3.4") = "" ∧
    getClientIP (sampleRequest "GET" ", 1.2.3.4") ≠
      (sampleRequest "GET" ", 1.2.3.4").remoteAddr := by
  decide

/-- C7, amended: the peer address is the result only on the fallback path,
taken when the header is absent or empty, and the identifier is then
non-empty whenever the peer address is.  For a non-empty header the result is
the first comma-separated entry of the header with the white space at both
ends removed, whatever the peer address is: it is non-empty when that trimmed
entry is non-empty and it is the empty string when the entry trims to
nothing. -/
theorem getClientIP_nonempty (r : Request) :
    (r.xForwardedFor = "" → getClientIP r = r.remoteAddr) ∧
    (r.xForwardedFor = "" → r.remoteAddr ≠ "" → getClientIP r ≠ "") ∧
    (r.xForwardedFor ≠ "" →
      getClientIP r =
        String.mk (trimSpace (r.xForwardedFor.data.takeWhile (fun c => decide (c ≠ ','))))) ∧
    (r.xForwardedFor ≠ "" → ∀ addr : String,
      getClientIP { r with remoteAddr := addr } = getClientIP r) ∧
    (r.xForwardedFor ≠ "" →
      trimSpace (r.xForwardedFor.data.takeWhile (fun c => decide (c ≠ ','))) ≠ [] →
      getClientIP r ≠ "") ∧
    (r.xForwardedFor ≠ "" →
      trimSpace (r.xForwardedFor.data.takeWhile (fun c => decide (c ≠ ','))) = [] →
      getClientIP r = "") := by
  refine ⟨getClientIP_no_header r, ?_, getClientIP_header r, ?_, ?_, ?_⟩
  · intro h hra
    rw [getClientIP_no_header r h]
    exact hra
  · intro h addr
    rw [getClientIP_header r h, getClientIP_header { r with remoteAddr := addr } h]
  · intro h hne heq
    rw [getClientIP_header r h] at heq
    exact hne (congrArg String.data heq)
  · intro h he
    rw [getClientIP_header r h, he]

theorem getClientIP_nonempty_witness :
    (getClientIP (sampleRequest "GET" "") = "10.0.0.1:40000" ∧
      getClientIP (sampleRequest "GET" "") ≠ "") ∧
    (getClientIP (sampleRequest "GET" " 1.2.3.4 , 10.0.0.2") =
        String.mk (trimSpace ((sampleRequest "GET" " 1.2.3.4 , 10.0.0.2").xForwardedFor.data.takeWhile
          (fun c => decide (c ≠ ',')))) ∧
      getClientIP (sampleRequest "GET" " 1.2.3.4 , 10.0.0.2") = "1.2.3.4" ∧
      getClientIP { sampleRequest "GET" " 1.2.3.4 , 10.0.0.2" with remoteAddr := "" } =
        getClientIP (sampleRequest "GET" " 1.2.3.4 , 10.0.0.2") ∧
      getClientIP (sampleRequest "GET" " 1.2.3.4 , 10.0.0.2") ≠ "") ∧
    getClientIP (sampleRequest "GET" " , 10.0.0.2") = "" :=
  ⟨⟨(getClientIP_nonempty (sampleRequest "GET" "")).1 (by decide),
    (getClientIP_nonempty (sampleRequest "GET" "")).2.1 (by decide) (by decide)⟩,
   ⟨(getClientIP_nonempty (sampleRequest "GET" " 1.2.3.4 , 10.0.0.2")).2.2.1 (by decide),
    by decide,
    (getClientIP_nonempty (sampleRequest "GET" " 1.2.3.4 , 10.0.0.2")).2.2.2.1 (by decide) "",
    (getClientIP_nonempty (sampleRequest "GET" " 1.2.3.4 , 10.0.0.2")).2.2.2.2.1
      (by decide) (by decide)⟩,
   (getClientIP_nonempty (sampleRequest "GET" " , 10.0.0.2")).2.2.2.2.2
     (by decide) (by decide)⟩

/-- C8: for a non-empty header value the identifier is the part of the value
before its first comma (the whole value when it has no comma) with the white
space at both ends removed, and so is the same for any two requests whose
header values agree up to the first comma, whatever their peer addresses and
later entries; for an absent or empty header it is the peer address. -/
theorem getClientIP_forwarded (r : Request) :
    (r.xForwardedFor ≠ "" →
      ∃ entry rest ws1 ws2 : List Char,
        (r.xForwardedFor.data = entry ∨ r.xForwardedFor.data = entry ++ ',' :: rest) ∧
        ',' ∉ entry ∧
        entry = ws1 ++ (getClientIP r).data ++ ws2 ∧
        (∀ c ∈ ws1, isSpace c = true) ∧ (∀ c ∈ ws2, isSpace c = true) ∧
        (∀ c, (getClientIP r).data.head? = some c → isSpace c = false) ∧
        (∀ c, (getClientIP r).data.getLast? = some c → isSpace c = false)) ∧
    (∀ r2 : Request, r.xForwardedFor ≠ "" → r2.xForwardedFor ≠ "" →
      r2.xForwardedFor.data.takeWhile (fun c => decide (c ≠ ',')) =
        r.xForwardedFor.data.takeWhile (fun c => decide (c ≠ ',')) →
      getClientIP r2 = getClientIP r) ∧
    (r.xForwardedFor = "" → getClientIP r = r.remoteAddr) := by
  refine ⟨?_, ?_, getClientIP_no_header r⟩
  · intro h
    obtain ⟨hnc, hshape⟩ := firstEntry_spec r.xForwardedFor.data
    obtain ⟨ws1, ws2, hdec, hws1, hws2, hhead, hlast⟩ :=
      trimSpace_spec (r.xForwardedFor.data.takeWhile (fun c => decide (c ≠ ',')))
    have hid : (getClientIP r).data =
        trimSpace (r.xForwardedFor.data.takeWhile (fun c => decide (c ≠ ','))) := by
      rw [getClientIP_header r h]
    rcases hshape with hs | ⟨rest, hs⟩
    · exact ⟨_, [], ws1, ws2, Or.inl hs, hnc, by rw [hid]; exact hdec, hws1, hws2,
        by rw [hid]; exact hhead, by rw [hid]; exact hlast⟩
    · exact ⟨_, rest, ws1, ws2, Or.inr hs, hnc, by rw [hid]; exact hdec, hws1, hws2,
        by rw [hid]; exact hhead, by rw [hid]; exact hlast⟩
  · intro r2 h h2 heq
    rw [getClientIP_header r h, getClientIP_header r2 h2, heq]

theorem getClientIP_forwarded_witness :
    getClientIP (sampleRequest "GET" " 1.2.3.4 , 10.0.0.2") = "1.2.3.4" ∧
    getClientIP
      { method := "GET", xForwardedFor := " 1.2.3.4 ,172.16.0.9, 10.0.0.2",
        remoteAddr := "192.168.0.7:1234", target := "example.org" } =
      getClientIP (sampleRequest "GET" " 1.2.3.4 , 10.0.0.2") ∧
    getClientIP (sampleRequest "GET" "") = (sampleRequest "GET" "").remoteAddr ∧
    ∃ entry rest ws1 ws2 : List Char,
      ((sampleRequest "GET" " 1.2.3.4 , 10.0.0.2").xForwardedFor.data = entry ∨
        (sampleRequest "GET" " 1.2.3.4 , 10.0.0.2").xForwardedFor.data =
          entry ++ ',' :: rest) ∧
      ',' ∉ entry ∧
      entry = ws1 ++ (getClientIP (sampleRequest "GET" " 1.2.3.4 , 10.0.0.2")).data ++ ws2 ∧
      (∀ c ∈ ws1, isSpace c = true) ∧ (∀ c ∈ ws2, isSpace c = true) ∧
      (∀ c, (getClientIP (sampleRequest "GET" " 1.2.3.4 , 10.0.0.2")).data.head? = some c →
        isSpace c = false) ∧
      (∀ c, (getClientIP (sampleRequest "GET" " 1.2.3.4 , 10.0.0.2")).data.getLast? = some c →
        isSpace c = false) :=
  ⟨by decide,
   (getClientIP_forwarded (sampleRequest "GET" " 1.2.3.4 , 10.0.0.2")).2.1
     { method := "GET", xForwardedFor := " 1.2.3.4 ,172.16.0.9, 10.0.0.2",
       remoteAddr := "192.168.0.7:1234", target := "example.org" }
     (by decide) (by decide) (by decide),
   (getClientIP_forwarded (sampleRequest "GET" "")).2.2 (by decide),
   (getClientIP_forwarded (sampleRequest "GET" " 1.2.3.4 , 10.0.0.2")).1 (by decide)⟩

/-! ## Forwarding -/

theorem writeHeader_final (w : ResponseWriter) (s : Nat) (hw : w.status = none)
    (hs : s = 101 ∨ (200 ≤ s ∧ s ≤ 999)) :
    w.writeHeader s = some { w with status := some s } := by
  unfold ResponseWriter.writeHeader
  have h1 : ¬ (s < 100 ∨ s > 999) := by omega
  have h2 : ¬ (s ≤ 199 ∧ s ≠ 101) := by omega
  simp [hw, h1, h2]

theorem writeHeader_panics (w : ResponseWriter) (s : Nat) (hw : w.status = none)
    (hs : s < 100 ∨ 999 < s) : w.writeHeader s = none := by
  unfold ResponseWriter.writeHeader
  simp [hw, hs]

/-- The copy of a body that is read to its end into a writer whose status is
written, when every `Write` takes its bytes. -/
theorem copyBody_complete (env : Env) (b : List Nat) (c : Ctx) (s : Nat)
    (hst : c.w.status = some s) (hr : env.readBreak = none)
    (hw : ∀ n, env.copyBreak = some n → b.length ≤ n)
    (hb : b = [] ∨ bodyAllowedForStatus s = true) :
    (copyBody env b c).w = { c.w with body := c.w.body ++ b } ∧
    (copyBody env b c).trace = c.trace ++ [Effect.ioCopy b.length] ∧
    (copyBody env b c).panicked = c.panicked := by
  have hens : c.w.ensureHeader = c.w := by
    simp [ResponseWriter.ensureHeader, ResponseWriter.writeHeader, hst]
  by_cases hnil : b = []
  · subst hnil
    simp [copyBody, bodyRead, hr, Ctx.emit]
  · have hal : bodyAllowedForStatus s = true := by
      rcases hb with h | h
      · exact absurd h hnil
      · exact h
    have hba : c.w.bodyAllowed = true := by
      simp [ResponseWriter.bodyAllowed, hst, hal]
    have htaken : bytesTaken env c.w b = b.length := by
      unfold bytesTaken
      rw [hens, hba]
      cases hcb : env.copyBreak with
      | none => simp
      | some n => simpa using hw n hcb
    simp [copyBody, bodyRead, hr, hnil, htaken, Ctx.emit, ResponseWriter.write, hens, hba]

/-- C9, counterexample: an upstream response with status 99 makes
`WriteHeader` panic, so no status and no body are sent; and an upstream
response with status 200 whose two-byte body breaks after one byte of reading
reaches the caller with that one byte only, although the caller takes
everything. -/
theorem upstream_status_counterexample :
    ((handleAnalysis
        { now := 0, upstream := GetResult.resp 99 [123, 125], copyBreak := none,
          readBreak := none }
        (sampleRequest "GET" "1.2.3.4")
        { w := ResponseWriter.fresh, clients := Registry.empty, trace := [] }).panicked = true ∧
      (handleAnalysis
        { now := 0, upstream := GetResult.resp 99 [123, 125], copyBreak := none,
          readBreak := none }
        (sampleRequest "GET" "1.2.3.4")
        { w := ResponseWriter.fresh, clients := Registry.empty, trace := [] }).w.status = none ∧
      (handleAnalysis
        { now := 0, upstream := GetResult.resp 99 [123, 125], copyBreak := none,
          readBreak := none }
        (sampleRequest "GET" "1.2.3.4")
        { w := ResponseWriter.fresh, clients := Registry.empty, trace := [] }).w.body = []) ∧
    ((handleAnalysis
        { now := 0, upstream := GetResult.resp 200 [123, 125], copyBreak := none,
          readBreak := some 1 }
        (sampleRequest "GET" "1.2.3.4")
        { w := ResponseWriter.fresh, clients := Registry.empty, trace := [] }).w.status =
          some 200 ∧
      (handleAnalysis
        { now := 0, upstream := GetResult.resp 200 [123, 125], copyBreak := none,
          readBreak := some 1 }
        (sampleRequest "GET" "1.2.3.4")
        { w := ResponseWriter.fresh, clients := Registry.empty, trace := [] }).w.body =
          [123]) := by
  decide

/-- C9, amended: for a GET request with non-empty target and an upstream that
answers with status `s` and body `b`: when `s` is 101 or lies between 200 and
999, the body is read to its end, the caller takes all of it and `b` is empty
for a status that allows no body, `handleAnalysis` gives the caller status
`s`, the single header `Content-Type: application/json` and exactly the bytes
`b` as body, without panic; when `s` is below 100 or above 999, `WriteHeader`
panics and neither status nor body is sent. -/
theorem upstream_round_trip (env : Env) (r : Request) (clients : Registry)
    (tr : List Effect) (s : Nat) (b : List Nat)
    (hm : r.method = "GET") (ht : r.target ≠ "")
    (hu : env.upstream = GetResult.resp s b) :
    ((s = 101 ∨ (200 ≤ s ∧ s ≤ 999)) →
      env.readBreak = none →
      (∀ n, env.copyBreak = some n → b.length ≤ n) →
      (b = [] ∨ bodyAllowedForStatus s = true) →
      (handleAnalysis env r
        { w := ResponseWriter.fresh, clients := clients, trace := tr }).w.status = some s ∧
      (handleAnalysis env r
        { w := ResponseWriter.fresh, clients := clients, trace := tr }).w.header =
          (fun k => if k = "Content-Type" then some "application/json" else none) ∧
      (handleAnalysis env r
        { w := ResponseWriter.fresh, clients := clients, trace := tr }).w.body = b ∧
      (handleAnalysis env r
        { w := ResponseWriter.fresh, clients := clients, trace := tr }).w.informational = [] ∧
      (handleAnalysis env r
        { w := ResponseWriter.fresh, clients := clients, trace := tr }).panicked = false ∧
      (handleAnalysis env r
        { w := ResponseWriter.fresh, clients := clients, trace := tr }).trace =
          tr ++ [Effect.clientGet r.target, Effect.writeHeader s, Effect.ioCopy b.length]) ∧
    ((s < 100 ∨ 999 < s) →
      (handleAnalysis env r
        { w := ResponseWriter.fresh, clients := clients, trace := tr }).panicked = true ∧
      (handleAnalysis env r
        { w := ResponseWriter.fresh, clients := clients, trace := tr }).w.status = none ∧
      (handleAnalysis env r
        { w := ResponseWriter.fresh, clients := clients, trace := tr }).w.body = [] ∧
      (handleAnalysis env r
        { w := ResponseWriter.fresh, clients := clients, trace := tr }).trace =
          tr ++ [Effect.clientGet r.target, Effect.writeHeader s]) := by
  have hset : (ResponseWriter.fresh.setHeader "Content-Type" "application/json") =
      { header := fun k => if k = "Content-Type" then some "application/json" else none,
        status := none, body := [], informational := [] } := rfl
  constructor
  · intro hs hr hw hb
    have hwh := writeHeader_final
      (ResponseWriter.fresh.setHeader "Content-Type" "application/json") s rfl hs
    rw [hset] at hwh
    obtain ⟨h1, h2, h3⟩ := copyBody_complete env b
      { w := { header := fun k => if k = "Content-Type" then some "application/json" else none,
               status := some s, body := [], informational := [] },
        clients := clients,
        trace := tr ++ [Effect.clientGet r.target, Effect.writeHeader s] } s rfl hr hw hb
    have hout : handleAnalysis env r
        { w := ResponseWriter.fresh, clients := clients, trace := tr } =
        copyBody env b
          { w := { header := fun k => if k = "Content-Type" then some "application/json"
                     else none,
                   status := some s, body := [], informational := [] },
            clients := clients,
            trace := tr ++ [Effect.clientGet r.target, Effect.writeHeader s] } := by
      unfold handleAnalysis
      simp only [hm, ht, hu, ne_eq, not_true_eq_false, if_false, Ctx.emit, hwh, hset,
        List.append_assoc, List.singleton_append]
    rw [hout, h1, h2, h3]
    simp
  · intro hs
    have hwh := writeHeader_panics
      (ResponseWriter.fresh.setHeader "Content-Type" "application/json") s rfl hs
    have hout : handleAnalysis env r
        { w := ResponseWriter.fresh, clients := clients, trace := tr } =
        { w := ResponseWriter.fresh.setHeader "Content-Type" "application/json",
          clients := clients,
          trace := tr ++ [Effect.clientGet r.target, Effect.writeHeader s],
          panicked := true } := by
      unfold handleAnalysis
      simp only [hm, ht, hu, ne_eq, not_true_eq_false, if_false, Ctx.emit, hwh,
        List.append_assoc, List.singleton_append]
    rw [hout]
    exact ⟨rfl, rfl, rfl, rfl⟩

theorem upstream_round_trip_witness :
    ((handleAnalysis (envAt 0) (sampleRequest "GET" "1.2.3.4")
        { w := ResponseWriter.fresh, clients := Registry.empty, trace := [] }).w.status =
          some 200 ∧
      (handleAnalysis (envAt 0) (sampleRequest "GET" "1.2.3.4")
        { w := ResponseWriter.fresh, clients := Registry.empty, trace := [] }).w.header =
          (fun k => if k = "Content-Type" then some "application/json" else none) ∧
      (handleAnalysis (envAt 0) (sampleRequest "GET" "1.2.3.4")
        { w := ResponseWriter.fresh, clients := Registry.empty, trace := [] }).w.body =
          [123, 125] ∧
      (handleAnalysis (envAt 0) (sampleRequest "GET" "1.2.3.4")
        { w := ResponseWriter.fresh, clients := Registry.empty, trace := [] }).w.informational =
          [] ∧
      (handleAnalysis (envAt 0) (sampleRequest "GET" "1.2.3.4")
        { w := ResponseWriter.fresh, clients := Registry.empty, trace := [] }).panicked =
          false ∧
      (handleAnalysis (envAt 0) (sampleRequest "GET" "1.2.3.4")
        { w := ResponseWriter.fresh, clients := Registry.empty, trace := [] }).trace =
          [] ++ [Effect.clientGet (sampleRequest "GET" "1.2.3.4").target,
            Effect.writeHeader 200, Effect.ioCopy [123, 125].length]) ∧
    ((handleAnalysis
        { now := 0, upstream := GetResult.resp 99 [123, 125], copyBreak := none,
          readBreak := none }
        (sampleRequest "GET" "1.2.3.4")
        { w := ResponseWriter.fresh, clients := Registry.empty, trace := [] }).panicked = true ∧
      (handleAnalysis
        { now := 0, upstream := GetResult.resp 99 [123, 125], copyBreak := none,
          readBreak := none }
        (sampleRequest "GET" "1.2.3.4")
        { w := ResponseWriter.fresh, clients := Registry.empty, trace := [] }).w.status = none ∧
      (handleAnalysis
        { now := 0, upstream := GetResult.resp 99 [123, 125], copyBreak := none,
          readBreak := none }
        (sampleRequest "GET" "1.2.3.4")
        { w := ResponseWriter.fresh, clients := Registry.empty, trace := [] }).w.body = [] ∧
      (handleAnalysis
        { now := 0, upstream := GetResult.resp 99 [123, 125], copyBreak := none,
          readBreak := none }
        (sampleRequest "GET" "1.2.3.4")
        { w := ResponseWriter.fresh, clients := Registry.empty, trace := [] }).trace =
          [] ++ [Effect.clientGet (sampleRequest "GET" "1.2.3.4").target,
            Effect.writeHeader 99]) :=
  ⟨(upstream_round_trip (envAt 0) (sampleRequest "GET" "1.2.3.4") Registry.empty [] 200
      [123, 125] (by decide) (by decide) (by decide)).1
      (by decide) (by decide) (by intro n h; simp [envAt] at h) (by decide),
   (upstream_round_trip
      { now := 0, upstream := GetResult.resp 99 [123, 125], copyBreak := none,
        readBreak := none }
      (sampleRequest "GET" "1.2.3.4") Registry.empty [] 99 [123, 125]
      (by decide) (by decide) (by decide)).2 (by decide)⟩

/-- C10: a GET request without target is answered 400 and no upstream call is
made; a GET request with target whose upstream call fails is answered 503
after one single upstream call; in both cases `handleAnalysis` leaves the
registry as it found it. -/
theorem handleAnalysis_failures (env : Env) (r : Request) (clients : Registry)
    (tr : List Effect) (hm : r.method = "GET") :
    (r.target = "" →
      (handleAnalysis env r
        { w := ResponseWriter.fresh, clients := clients, trace := tr }).w.status = some 400 ∧
      (handleAnalysis env r
        { w := ResponseWriter.fresh, clients := clients, trace := tr }).trace =
          tr ++ [Effect.httpError 400] ∧
      (handleAnalysis env r
        { w := ResponseWriter.fresh, clients := clients, trace := tr }).clients = clients) ∧
    (r.target ≠ "" → env.upstream = GetResult.err →
      (handleAnalysis env r
        { w := ResponseWriter.fresh, clients := clients, trace := tr }).w.status = some 503 ∧
      (handleAnalysis env r
        { w := ResponseWriter.fresh, clients := clients, trace := tr }).trace =
          tr ++ [Effect.clientGet r.target, Effect.logPrintf, Effect.httpError 503] ∧
      (handleAnalysis env r
        { w := ResponseWriter.fresh, clients := clients, trace := tr }).clients = clients) := by
  constructor
  · intro ht
    unfold handleAnalysis
    simp only [hm, ht, ne_eq, not_true_eq_false, if_false, if_true]
    exact ⟨rfl, rfl, rfl⟩
  · intro ht hu
    unfold handleAnalysis
    simp only [hm, ht, hu, ne_eq, not_true_eq_false, if_false]
    refine ⟨rfl, ?_, rfl⟩
    rw [httpError_trace]
    simp [Ctx.emit]

theorem handleAnalysis_failures_witness :
    ((handleAnalysis (envAt 0)
        { method := "GET", xForwardedFor := "", remoteAddr := "10.0.0.1:40000", target := "" }
        { w := ResponseWriter.fresh, clients := Registry.empty, trace := [] }).w.status =
          some 400 ∧
      (handleAnalysis (envAt 0)
        { method := "GET", xForwardedFor := "", remoteAddr := "10.0.0.1:40000", target := "" }
        { w := ResponseWriter.fresh, clients := Registry.empty, trace := [] }).trace =
          [] ++ [Effect.httpError 400] ∧
      (handleAnalysis (envAt 0)
        { method := "GET", xForwardedFor := "", remoteAddr := "10.0.0.1:40000", target := "" }
        { w := ResponseWriter.fresh, clients := Registry.empty, trace := [] }).clients =
          Registry.empty) ∧
    ((handleAnalysis (envDownAt 0) (sampleRequest "GET" "1.2.3.4")
        { w := ResponseWriter.fresh, clients := Registry.empty, trace := [] }).w.status =
          some 503 ∧
      (handleAnalysis (envDownAt 0) (sampleRequest "GET" "1.2.3.4")
        { w := ResponseWriter.fresh, clients := Registry.empty, trace := [] }).trace =
          [] ++ [Effect.clientGet (sampleRequest "GET" "1.2.3.4").target, Effect.logPrintf,
            Effect.httpError 503] ∧
      (handleAnalysis (envDownAt 0) (sampleRequest "GET" "1.2.3.4")
        { w := ResponseWriter.fresh, clients := Registry.empty, trace := [] }).clients =
          Registry.empty) :=
  ⟨(handleAnalysis_failures (envAt 0)
      { method := "GET", xForwardedFor := "", remoteAddr := "10.0.0.1:40000", target := "" }
      Registry.empty [] (by decide)).1 (by decide),
   (handleAnalysis_failures (envDownAt 0) (sampleRequest "GET" "1.2.3.4")
      Registry.empty [] (by decide)).2 (by decide) (by decide)⟩

end Gateway
